import Mathlib

/-!
Verification of the temporal multi-task forecasting pipeline in
`train_fid_temporal.py` (autocast repository).

The embedding models the pure data-shaping core of the script:

* `get_category`  — `ForecastingDataset.get_category` (category classification),
* `dayRow`, `buildDays`, `fallbackRow`, `preTrunc`, `getItem`
                  — `ForecastingDataset.__getitem__` (per-day target
                    construction, fallback day, truncation, `-1.0` padding),
* `forecaster_collate_fn` — the sequence batch collator (`-2.0` / zero
                    padding, validity mask, `seq_ends`),
* `computeLosses` — the per-category loss routing in `train`,
* `fidGradInfo`   — the gradient-flow switch of `get_fid_outputs`.

Python floats are modelled as `ℚ` (the script only performs field
arithmetic on them), Python runtime errors (KeyError, IndexError,
TypeError, ZeroDivisionError, NameError, torch shape errors) as `none`
of an `Option` result.  Tensors are lists (of lists) of rationals.
The external collaborators (FiD encoder, tokenizer, GPT-2 forecaster,
optimizer) are out of scope, exactly as in the specification; the loss
engine takes the task heads' outputs and the (transcendental)
log-softmax as inputs.
-/

/-- Mirrors the module-level constant `max_choice_len = 12`. -/
def max_choice_len : Nat := 12

/-- The value stored in a day's `target` field: a float-convertible scalar
(BinaryTF / Regression) or a list of per-choice scores (MultiChoice). -/
inductive TargetVal where
  | scalar (t : ℚ)
  | vec (ts : List ℚ)
deriving DecidableEq, Repr

/-- Mirrors Python's `isinstance(x, list)` test on a target value. -/
def TargetVal.isVec : TargetVal → Bool
  | .vec _ => true
  | .scalar _ => false

/-- One `DaySnapshot` of a question: its crowd target and the number of
retrieved documents (`ctxs`); the script only tests `ctxs` for emptiness. -/
structure DaySnapshot where
  target : TargetVal
  ctxs : Nat
deriving DecidableEq, Repr

/-- The `choices` field of a record: a mapping (regression bounds, only its
`len` is read) or a list of choice strings. -/
inductive ChoiceSet where
  | dict (size : Nat)
  | list (cs : List String)
deriving DecidableEq, Repr

/-- Python's `len(example['choices'])`. -/
def ChoiceSet.len : ChoiceSet → Nat
  | .dict n => n
  | .list cs => cs.length

/-- A `QuestionRecord` as loaded from the dataset file. -/
structure QuestionRecord where
  question : String
  answers : List String
  choices : ChoiceSet
  targets : List DaySnapshot
deriving DecidableEq, Repr

/-- The list `tf_choices = ['yes', 'no', 'Yes', 'No']` in `get_category`. -/
def tf_choices : List String := ["yes", "no", "Yes", "No"]

/-- Tail of `get_category` after the first disjunct
`choices[0] not in tf_choices and choices[1] not in tf_choices` evaluated
to `False`: checks `len(choices) > 2` and then
`isinstance(targets[0]['target'], list)` (IndexError on empty targets is
`none`). -/
def restCheck (cs : List String) (ts : List DaySnapshot) : Option Nat :=
  if cs.length > 2 then some 1
  else
    match ts.head? with
    | none => none
    | some d => if d.target.isVec then some 1 else some 0

/-- `ForecastingDataset.get_category` with Python's left-to-right
short-circuit evaluation; `none` models an uncaught IndexError. -/
def get_category (ex : QuestionRecord) : Option Nat :=
  match ex.choices with
  | .dict _ => some 2
  | .list cs =>
    match cs.head? with
    | none => none
    | some c0 =>
      if c0 ∈ tf_choices then restCheck cs ex.targets
      else
        match cs.get? 1 with
        | none => none
        | some c1 =>
          if c1 ∈ tf_choices then restCheck cs ex.targets
          else some 1

/-- Whether the first day's target is list-valued (the third disjunct of the
MultiChoice test). -/
def headTargetIsVec (ts : List DaySnapshot) : Bool :=
  match ts.head? with
  | some d => d.target.isVec
  | none => false

/-- The full MultiChoice condition of `get_category` for a list-typed choice
set, evaluated without errors (defaults only matter on inputs where the
script itself raises). -/
def mcCond (cs : List String) (ts : List DaySnapshot) : Bool :=
  ((!decide (cs.getD 0 "yes" ∈ tf_choices)) && (!decide (cs.getD 1 "yes" ∈ tf_choices)))
    || decide (cs.length > 2) || headTargetIsVec ts

/-- The module-level table `STR2BOOL = {'yes': 1, 'Yes': 1, 'no': 0, 'No': 0}`;
`none` models the KeyError on any other answer string. -/
def STR2BOOL (s : String) : Option ℚ :=
  if s = "yes" ∨ s = "Yes" then some 1
  else if s = "no" ∨ s = "No" then some 0
  else none

/-- Python's `ord` applied to an answer string: defined only on one-character
strings, returns the code point. -/
def pyOrd (s : String) : Option Int :=
  match s.toList with
  | [c] => some (c.toNat : Int)
  | _ => none

/-- Digit-string to natural number; `none` on a non-digit character. -/
def digitsToNat (l : List Char) : Option Nat :=
  l.foldl
    (fun acc c =>
      match acc with
      | none => none
      | some n => if c.isDigit then some (n * 10 + (c.toNat - 48)) else none)
    (some 0)

/-- Python's `float(...)` on the simple decimal strings the dataset uses
(optional sign, digits, optional fraction); `none` models ValueError.
Exponent and special-value forms are not needed by the script's data. -/
def pyFloat (s : String) : Option ℚ :=
  let chars := s.toList
  let signed := match chars with
    | '-' :: rest => (true, rest)
    | _ => (false, chars)
  let intPart := signed.2.takeWhile (· ≠ '.')
  match signed.2.dropWhile (· ≠ '.') with
  | [] =>
    match digitsToNat intPart with
    | some n => if intPart.isEmpty then none
                else some (if signed.1 then -(n : ℚ) else (n : ℚ))
    | none => none
  | _ :: fracPart =>
    if intPart.isEmpty ∧ fracPart.isEmpty then none
    else
      match digitsToNat intPart, digitsToNat fracPart with
      | some a, some b =>
        let v : ℚ := (a : ℚ) + (b : ℚ) / ((10 : ℚ) ^ fracPart.length)
        some (if signed.1 then -v else v)
      | _, _ => none

/-- The `true_target` computation of `__getitem__` (lines 622–627): category 0
looks the first answer up in `STR2BOOL`, category 2 parses it as a float,
category 1 maps the answer letter to `ord(answer) - ord('A')`. -/
def trueTargetOf (cat : Nat) (answers : List String) : Option ℚ :=
  match answers.head? with
  | none => none
  | some a =>
    if cat = 0 then STR2BOOL a
    else if cat = 2 then pyFloat a
    else (pyOrd a).map (fun n => (n : ℚ) - 65)

/-- The target-adjustment list comprehension
`[(t[i]+1)/2 if i == true_target else t[i]/2 for i in range(len(t))]`,
written with an explicit running index. -/
def adjustMC (trueT : ℚ) : Nat → List ℚ → List ℚ
  | _, [] => []
  | i, x :: xs =>
    (if (i : ℚ) = trueT then (x + 1) / 2 else x / 2) :: adjustMC trueT (i + 1) xs

/-- Per-day target construction of `__getitem__` (lines 637–648) for one day
with documents.  `length` is `min(len(choices), max_choice_len)`; `none`
models the TypeError of `float` on a list (and vice versa) and the
ZeroDivisionError when the kept scores sum to zero. -/
def dayRow (adjust : Bool) (cat : Nat) (trueT : ℚ) (length : Nat)
    (tv : TargetVal) : Option (List ℚ) :=
  if cat = 0 ∨ cat = 2 then
    match tv with
    | .scalar t => some [if adjust then (t + trueT) / 2 else t]
    | .vec _ => none
  else
    match tv with
    | .vec ts =>
      let targets_mc := ts.take length
      let total := targets_mc.sum
      if total = 0 then none
      else
        let t := targets_mc.map (· / total)
        some (if adjust then adjustMC trueT 0 t else t)
    | .scalar _ => none

/-- The day loop of `__getitem__` (lines 630–656): days without documents are
skipped, each kept day contributes one target row and one sub-example whose
`id` is the day's index; the returned Boolean is the script's `has_ctxs`
flag. -/
def buildDays (adjust : Bool) (cat : Nat) (trueT : ℚ) (length : Nat) :
    Nat → List DaySnapshot → Option (List (List ℚ) × List Nat × Bool)
  | _, [] => some ([], [], false)
  | i, d :: ds =>
    if d.ctxs = 0 then buildDays adjust cat trueT length (i + 1) ds
    else
      match dayRow adjust cat trueT length d.target with
      | none => none
      | some row =>
        match buildDays adjust cat trueT length (i + 1) ds with
        | none => none
        | some (rows, ids, _) => some (row :: rows, i :: ids, true)

/-- The fallback target appended when no day has documents (lines 665–668):
`[float(true_target)]` for BinaryTF/Regression, the indicator list
`[float(i == true_target) for i in range(length)]` for MultiChoice. -/
def fallbackRow (cat : Nat) (trueT : ℚ) (length : Nat) : List ℚ :=
  if cat = 0 ∨ cat = 2 then [trueT]
  else (List.range length).map (fun i => if (i : ℚ) = trueT then 1 else 0)

/-- Output of `__getitem__` before truncation and padding: the target rows,
the sub-example day ids, the true label and the category. -/
structure RawItem where
  rows : List (List ℚ)
  ids : List Nat
  trueLabel : ℚ
  cat : Nat
deriving DecidableEq, Repr

/-- `__getitem__` up to (and including) the fallback branch, before the
`[-max_seq_len:]` truncation.  `none` on a record whose classification, true
label or any day row raises, and on a record with an empty `targets` list
(there the fallback branch reads the loop variable `day`, which was never
bound — a NameError). -/
def preTrunc (adjust : Bool) (ex : QuestionRecord) : Option RawItem :=
  (get_category ex).bind fun cat =>
    let length := min ex.choices.len max_choice_len
    (trueTargetOf cat ex.answers).bind fun trueT =>
      (buildDays adjust cat trueT length 0 ex.targets).bind fun r =>
        if r.2.2 then some ⟨r.1, r.2.1, trueT, cat⟩
        else if ex.targets.isEmpty then none
        else some ⟨r.1 ++ [fallbackRow cat trueT length], r.2.1 ++ [0], trueT, cat⟩

/-- Python's slice `l[-n:]` (for `n = 0` it is `l[0:] = l`). -/
def pySliceLast (n : Nat) (l : List α) : List α :=
  if n = 0 then l else l.drop (l.length - n)

/-- Right-pad one row to width `w` with the value `v`. -/
def padRow (w : Nat) (v : ℚ) (r : List ℚ) : List ℚ :=
  r ++ List.replicate (w - r.length) v

/-- The two-step target padding of `__getitem__` (lines 674–677):
`pad_sequence(..., padding_value=-1.)` to the longest row, then writing into
a `[num_days, max_choice_len]` tensor filled with `-1.`.  `none` models the
torch errors on an empty row list (`pad_sequence` raises) or on a row longer
than `max_choice_len` (the slice assignment's shape mismatch). -/
def padTargets (rows : List (List ℚ)) : Option (List (List ℚ)) :=
  if rows.isEmpty then none
  else if (rows.map List.length).foldr max 0 > max_choice_len then none
  else some (rows.map (padRow max_choice_len (-1)))

/-- The observable output of `ForecastingDataset.__getitem__`: the
sub-example day ids and the target rows after truncation (`rows` is the
pre-padding list of rows, `padded` the returned
`[num_days, max_choice_len]` tensor), plus true label and category. -/
structure ItemOut where
  ids : List Nat
  rows : List (List ℚ)
  padded : List (List ℚ)
  trueLabel : ℚ
  cat : Nat
deriving DecidableEq, Repr

/-- `ForecastingDataset.__getitem__` for one record: classification, per-day
targets, fallback, truncation to the most recent `max_seq_len` entries, and
`-1.0` padding.  (The script's internal assertion
`len(targets) == len(fid_examples)` is provable, see the length-invariant
theorem, so it is not modelled as a failure case.) -/
def getItem (adjust : Bool) (max_seq_len : Nat) (ex : QuestionRecord) :
    Option ItemOut :=
  (preTrunc adjust ex).bind fun raw =>
    let ids := pySliceLast max_seq_len raw.ids
    let rows := pySliceLast max_seq_len raw.rows
    (padTargets rows).bind fun padded =>
      some ⟨ids, rows, padded, raw.trueLabel, raw.cat⟩

/-- Maximum of a list of naturals (`torch.pad_sequence`'s target length). -/
def listMax (l : List Nat) : Nat := l.foldr max 0

/-- `torch.nn.utils.rnn.pad_sequence(batch_first=True, padding_value=v)` on a
batch of `[seq_i, w]` matrices: each matrix is right-padded with constant
rows to the longest sequence; the trailing width is read off the first
matrix, as torch does. -/
def padSequence (v : ℚ) (mats : List (List (List ℚ))) : List (List (List ℚ)) :=
  let maxL := listMax (mats.map List.length)
  let w := ((mats.headD []).headD []).length
  mats.map (fun m => m ++ List.replicate (maxL - m.length) (List.replicate w v))

/-- The collated batch returned by `forecaster_collate_fn`. -/
structure CollOut where
  X : List (List (List ℚ))
  mask : List (List Bool)
  labels : List (List (List ℚ))
  trueLabels : List ℚ
  cats : List Nat
  seqEnds : List Int
deriving DecidableEq, Repr

/-- `forecaster_collate_fn` (lines 754–766): zero-pad the hidden-vector
sequences, `-2.0`-pad the target sequences, build the validity mask by
zeroing each row beyond its original sequence length, and record
`seq_ends[i] = len_i - 1`. -/
def forecaster_collate_fn (examples labels : List (List (List ℚ)))
    (trueLabels : List ℚ) (cats : List Nat) : CollOut :=
  let seqLengths := labels.map List.length
  let X := padSequence 0 examples
  let L := padSequence (-2) labels
  let maxD := listMax seqLengths
  let mask := seqLengths.map (fun len => (List.range maxD).map (fun d => decide (d < len)))
  let seqEnds := seqLengths.map (fun len : Nat => ((len : Int) - 1))
  ⟨X, mask, L, trueLabels, cats, seqEnds⟩

/-- Element access `xs[i][j]` on a nested list, as an `Option`. -/
def entry2 (xs : List (List α)) (i j : Nat) : Option α :=
  (xs.get? i).bind fun r => r.get? j

/-- Boolean-mask row selection `t[cats == c]`: the rows of `xs` whose
parallel category equals `c`, in order. -/
def selectCat (c : Nat) (cats : List Nat) (xs : List α) : List α :=
  ((cats.zip xs).filter (fun p => p.1 == c)).map Prod.snd

/-- Sum of elementwise products (`(a * b).sum(dim=-1)` on one day row). -/
def dotSum (a b : List ℚ) : ℚ := (List.zipWith (· * ·) a b).sum

/-- Masked per-example sequence loss: zero out invalid days, sum, divide by
the number of valid days (`size_*_seq`).  In torch a zero denominator gives
`nan`; in `ℚ` it gives `0` — the batch pipeline never produces an example
with zero valid days. -/
def maskedSeqLoss (perDay : List ℚ) (mask : List Bool) : ℚ :=
  (List.zipWith (fun v m => if m then v else (0 : ℚ)) perDay mask).sum
    / ((mask.count true : Nat) : ℚ)

/-- `torch.mean` over a vector of per-example losses. -/
def qmean (l : List ℚ) : ℚ := l.sum / ((l.length : Nat) : ℚ)

/-- The BinaryTF loss body (lines 129–132): per day, the cross-entropy
`-(logsoftmax(logits) * [t, 1-t]).sum()` with `t` the first entry of the
day's label row, masked and length-normalized per example, then averaged.
`lsm` is the (external, transcendental) `nn.LogSoftmax(dim=-1)` applied to
one day's logit row. -/
def lossTF (lsm : List ℚ → List ℚ)
    (logits labels : List (List (List ℚ))) (mask : List (List Bool)) : ℚ :=
  qmean ((List.zipWith (fun (p : List (List ℚ) × List (List ℚ)) mk =>
      maskedSeqLoss
        (List.zipWith (fun dayLg dayLb =>
          let t := ((dayLb.take 1).headD 0)
          dotSum ((lsm dayLg).map (fun x => -x)) [t, 1 - t]) p.1 p.2)
        mk)
    (logits.zip labels) mask))

/-- The MultiChoice loss body (lines 133–136) without the final `/ 1.74`:
entrywise `-logsoftmax * label`, kept only where the label entry is `≥ 0`
(the `mc_mask_indi` sentinel filter), summed over days and choices, divided
by the number of valid days, then averaged over examples. -/
def lossMC (lsm : List ℚ → List ℚ)
    (logits labels : List (List (List ℚ))) (mask : List (List Bool)) : ℚ :=
  qmean ((List.zipWith (fun (p : List (List ℚ) × List (List ℚ)) mk =>
      ((List.zipWith (fun dayLg dayLb =>
          (List.zipWith (fun l x => if x ≥ 0 then -l * x else (0 : ℚ)) (lsm dayLg) dayLb).sum)
        p.1 p.2).sum)
        / ((mk.count true : Nat) : ℚ))
    (logits.zip labels) mask))

/-- The Regression loss body (lines 137–139) without the final `/ 0.18`:
squared error of the head output against the first entry of each day's label
row, masked and length-normalized, then averaged over examples. -/
def lossRE (results : List (List ℚ))
    (labels : List (List (List ℚ))) (mask : List (List Bool)) : ℚ :=
  qmean ((List.zipWith (fun (p : List ℚ × List (List ℚ)) mk =>
      maskedSeqLoss
        (List.zipWith (fun a dayLb => (a - dayLb.headD 0) ^ 2) p.1 p.2)
        mk)
    (results.zip labels) mask))

/-- Inputs to the loss stage of one training step: the three heads' outputs
over the whole batch (computed by the external forecaster) plus the collated
labels, mask and categories. -/
structure LossIn where
  tfLogits : List (List (List ℚ))
  mcLogits : List (List (List ℚ))
  reResults : List (List ℚ)
  labels : List (List (List ℚ))
  mask : List (List Bool)
  cats : List Nat
deriving Repr

/-- The per-category loss routing of `train` (lines 113–141): select each
head's rows, labels and mask by category id, guard each loss behind a
non-emptiness check (`if len(..._labels) > 0`), apply the fixed scale
divisors 1.74 and 0.18, and sum.  Returns
`(loss_tf, loss_mc, loss_re, train_loss)`. -/
def computeLosses (lsm : List ℚ → List ℚ) (b : LossIn) : ℚ × ℚ × ℚ × ℚ :=
  let tfLogits := selectCat 0 b.cats b.tfLogits
  let mcLogits := selectCat 1 b.cats b.mcLogits
  let reResults := selectCat 2 b.cats b.reResults
  let tfLabels := selectCat 0 b.cats b.labels
  let mcLabels := selectCat 1 b.cats b.labels
  let reLabels := selectCat 2 b.cats b.labels
  let tfMask := selectCat 0 b.cats b.mask
  let mcMask := selectCat 1 b.cats b.mask
  let reMask := selectCat 2 b.cats b.mask
  let ltf := if tfLabels.length > 0 then lossTF lsm tfLogits tfLabels tfMask else 0
  let lmc := if mcLabels.length > 0 then lossMC lsm mcLogits mcLabels mcMask / (174/100) else 0
  let lre := if reLabels.length > 0 then lossRE reResults reLabels reMask / (18/100) else 0
  (ltf, lmc, lre, ltf + lmc + lre)

/-- Operating mode requested from `get_fid_outputs`. -/
inductive Mode where
  | train
  | eval
deriving DecidableEq, Repr

/-- Gradient-relevant facets of one `get_fid_outputs` call: whether the
forward pass ran with gradients enabled, whether the returned hidden vectors
were detached, and the effective encoder mode. -/
structure GradInfo where
  gradEnabled : Bool
  detached : Bool
  effMode : Mode
deriving DecidableEq, Repr

/-- The gradient-flow switch of `get_fid_outputs` (lines 718, 721, 729,
749–750): `if not opt.finetune_encoder: mode = 'eval'`, then
`torch.set_grad_enabled(mode == 'train')` around the forward pass and a
final `outputs.detach()` when the (possibly forced) mode is `'eval'`. -/
def fidGradInfo (finetune_encoder : Bool) (mode : Mode) : GradInfo :=
  let m := if finetune_encoder then mode else Mode.eval
  ⟨m == Mode.train, m == Mode.eval, m⟩

/-- Whether the hidden vectors returned by `get_fid_outputs` carry gradient
information: the forward pass tracked gradients and the result was not
detached. -/
def carriesGrad (g : GradInfo) : Bool := g.gradEnabled && !g.detached

/-- Spec-side formula (refinement comparison) for a BinaryTF/Regression day
target, following §4.1 verbatim: a 1-vector `[t]`, optionally averaged with
the true label. -/
def specScalarTarget (adjust : Bool) (trueT t : ℚ) : List ℚ :=
  [if adjust then (t + trueT) / 2 else t]

/-- Spec-side formula (refinement comparison) for a MultiChoice day target,
following §4.1 verbatim: normalize the day's raw scores to sum to 1 over the
first `min(num_choices, max_choice_len)` choices, then optionally halve
every entry except the true-choice entry, which becomes `(entry+1)/2`. -/
def specMCTarget (adjust : Bool) (trueT : ℚ) (num_choices : Nat)
    (raw : List ℚ) : List ℚ :=
  let kept := raw.take (min num_choices max_choice_len)
  let norm := kept.map (fun x => x / kept.sum)
  if adjust then
    norm.enum.map (fun p => if (p.1 : ℚ) = trueT then (p.2 + 1) / 2 else p.2 / 2)
  else norm

/-- Claim C1: category classification is a deterministic pure function of the
record's choices and targets (hence of `(choices, targets, answer)`): a
mapping-typed choice set yields Regression (2); otherwise a choice set whose
first two options are both non-yes/no, or one with more than two options, or
a list-valued first-day target yields MultiChoice (1); otherwise BinaryTF
(0); and re-running classification on the same record returns the same
category. -/
theorem get_category_deterministic_spec (ex : QuestionRecord) :
    (∀ n, ex.choices = .dict n → get_category ex = some 2) ∧
    (∀ cs c, ex.choices = .list cs → get_category ex = some c →
      c = if mcCond cs ex.targets then 1 else 0) ∧
    (∀ ex' : QuestionRecord, ex.choices = ex'.choices → ex.targets = ex'.targets →
      get_category ex = get_category ex') ∧
    get_category ex = get_category ex := by
  refine ⟨?_, ?_, ?_, rfl⟩
  · intro n hn
    simp [get_category, hn]
  · intro cs c hcs hc
    have hrest : ∀ c', restCheck cs ex.targets = some c' →
        c' = if (decide (cs.length > 2) || headTargetIsVec ex.targets) then 1 else 0 := by
      intro c' hc'
      unfold restCheck at hc'
      by_cases hlen : cs.length > 2
      · simp [hlen] at hc' ⊢
        omega
      · simp [hlen] at hc' ⊢
        cases hh : ex.targets.head? with
        | none => rw [hh] at hc'; exact absurd hc' (by simp)
        | some d =>
          rw [hh] at hc'
          by_cases hv : d.target.isVec
          · simp [headTargetIsVec, hh, hv] at hc' ⊢; omega
          · simp [headTargetIsVec, hh, hv] at hc' ⊢; omega
    unfold get_category at hc
    rw [hcs] at hc
    cases cs with
    | nil => simp at hc
    | cons c0 rest =>
      simp only [List.head?_cons] at hc
      by_cases hm0 : c0 ∈ tf_choices
      · rw [if_pos hm0] at hc
        rw [hrest c hc]
        simp [mcCond, hm0]
      · rw [if_neg hm0] at hc
        cases rest with
        | nil => simp at hc
        | cons c1 r2 =>
          simp only [List.get?_cons_succ, List.get?_cons_zero] at hc
          by_cases hm1 : c1 ∈ tf_choices
          · rw [if_pos hm1] at hc
            rw [hrest c hc]
            simp [mcCond, hm0, hm1]
          · rw [if_neg hm1] at hc
            have hcc : c = 1 := by simp at hc; omega
            rw [hcc]
            simp [mcCond, hm0, hm1]
  · intro ex' hch ht
    unfold get_category restCheck
    rw [hch, ht]

/-- Witness for C1: a record with a mapping-typed choice set is classified as
Regression (category 2), and a yes/no record as BinaryTF (category 0). -/
theorem get_category_deterministic_spec_witness :
    get_category ⟨"q", ["0.5"], .dict 2, [⟨.scalar (1/2), 1⟩]⟩ = some 2 ∧
    (0 : Nat) = if mcCond ["yes", "no"] [⟨.scalar (1/2), 1⟩] then 1 else 0 := by
  constructor
  · exact (get_category_deterministic_spec ⟨"q", ["0.5"], .dict 2, [⟨.scalar (1/2), 1⟩]⟩).1 2 rfl
  · exact (get_category_deterministic_spec
      ⟨"q", ["yes"], .list ["yes", "no"], [⟨.scalar (1/2), 1⟩]⟩).2.1
      ["yes", "no"] 0 rfl (by decide)

/-- Each append inside the day loop pushes one target row and one sub-example
together, so the two produced lists always have equal length. -/
theorem buildDays_length (adjust : Bool) (cat : Nat) (trueT : ℚ) (length : Nat) :
    ∀ (ds : List DaySnapshot) (i : Nat) r,
      buildDays adjust cat trueT length i ds = some r →
      r.1.length = r.2.1.length := by
  intro ds
  induction ds with
  | nil => intro i r h; simp [buildDays] at h; simp [← h]
  | cons d ds ih =>
    intro i r h
    unfold buildDays at h
    by_cases hctx : d.ctxs = 0
    · rw [if_pos hctx] at h
      exact ih (i + 1) r h
    · rw [if_neg hctx] at h
      cases hrow : dayRow adjust cat trueT length d.target with
      | none => rw [hrow] at h; exact absurd h (by simp)
      | some row =>
        rw [hrow] at h
        cases hrec : buildDays adjust cat trueT length (i + 1) ds with
        | none => rw [hrec] at h; exact absurd h (by simp)
        | some rec' =>
          rw [hrec] at h
          obtain ⟨rows, ids, flag⟩ := rec'
          simp at h
          have := ih (i + 1) (rows, ids, flag) hrec
          simp at this
          simp [← h, this]

/-- When no day has documents the loop keeps nothing and `has_ctxs` stays
false. -/
theorem buildDays_nodocs (adjust : Bool) (cat : Nat) (trueT : ℚ) (length : Nat) :
    ∀ (ds : List DaySnapshot), (∀ d ∈ ds, d.ctxs = 0) →
      ∀ i, buildDays adjust cat trueT length i ds = some ([], [], false) := by
  intro ds
  induction ds with
  | nil => intro _ i; simp [buildDays]
  | cons d ds ih =>
    intro h i
    have hd : d.ctxs = 0 := h d (by simp)
    unfold buildDays
    rw [if_pos hd]
    exact ih (fun d' hd' => h d' (by simp [hd'])) (i + 1)

/-- `l[-n:]` keeps `min n (len l)` entries (for `n = 0`, the whole list). -/
theorem pySliceLast_length (n : Nat) (l : List α) :
    (pySliceLast n l).length = if n = 0 then l.length else min n l.length := by
  unfold pySliceLast
  by_cases h : n = 0
  · simp [h]
  · simp [h]
    omega

/-- Truncating a one-element list never removes its element. -/
theorem pySliceLast_singleton (n : Nat) (x : α) : pySliceLast n [x] = [x] := by
  unfold pySliceLast
  by_cases h : n = 0
  · simp [h]
  · have h1 : 1 - n = 0 := by omega
    simp [h, h1]

/-- Claim C2: for every record with at least one day containing documents,
`__getitem__` produces equally many target rows and day sub-examples, both
before the `[-max_seq_len:]` truncation (where the script's assertion
checks it) and after it, the truncated lists being exactly the most recent
`max_seq_len` entries of the untruncated ones. -/
theorem transformer_length_invariant (adjust : Bool) (msl : Nat)
    (ex : QuestionRecord) (hdoc : ∃ d ∈ ex.targets, d.ctxs ≠ 0) :
    (∀ raw, preTrunc adjust ex = some raw → raw.rows.length = raw.ids.length) ∧
    (∀ raw out, preTrunc adjust ex = some raw → getItem adjust msl ex = some out →
      out.rows = pySliceLast msl raw.rows ∧ out.ids = pySliceLast msl raw.ids ∧
      out.rows.length = out.ids.length) := by
  have hpre : ∀ raw, preTrunc adjust ex = some raw → raw.rows.length = raw.ids.length := by
    intro raw hraw
    unfold preTrunc at hraw
    simp only [Option.bind_eq_some] at hraw
    obtain ⟨cat, hcat, trueT, htt, r, hbd, hres⟩ := hraw
    have hlen : r.1.length = r.2.1.length :=
      buildDays_length adjust cat trueT (min ex.choices.len max_choice_len)
        ex.targets 0 r hbd
    by_cases hflag : r.2.2 = true
    · rw [if_pos hflag] at hres
      simp at hres
      simp [← hres, hlen]
    · rw [if_neg hflag] at hres
      by_cases hemp : ex.targets.isEmpty
      · rw [if_pos hemp] at hres; exact absurd hres (by simp)
      · rw [if_neg hemp] at hres
        simp at hres
        simp [← hres, hlen]
  refine ⟨hpre, ?_⟩
  intro raw out hraw hout
  unfold getItem at hout
  rw [hraw] at hout
  simp only [Option.some_bind, Option.bind_eq_some] at hout
  obtain ⟨padded, hpad, hres⟩ := hout
  have heq := Option.some.inj hres
  have hr : out.rows = pySliceLast msl raw.rows := by rw [← heq]
  have hi : out.ids = pySliceLast msl raw.ids := by rw [← heq]
  refine ⟨hr, hi, ?_⟩
  rw [hr, hi, pySliceLast_length, pySliceLast_length, hpre raw hraw]

/-- Witness for C2: the three-day binary scenario record has a day with
documents, and its row and id counts agree before and after truncation. -/
theorem transformer_length_invariant_witness :
    (∃ d ∈ ([⟨.scalar (6/10), 1⟩, ⟨.scalar (7/10), 1⟩, ⟨.scalar (9/10), 1⟩] :
        List DaySnapshot), d.ctxs ≠ 0) ∧
    ∀ raw, preTrunc false ⟨"q", ["yes"], .list ["yes", "no"],
        [⟨.scalar (6/10), 1⟩, ⟨.scalar (7/10), 1⟩, ⟨.scalar (9/10), 1⟩]⟩ = some raw →
      raw.rows.length = raw.ids.length := by
  refine ⟨⟨⟨.scalar (6/10), 1⟩, by simp, by simp⟩, ?_⟩
  exact (transformer_length_invariant false 128 ⟨"q", ["yes"], .list ["yes", "no"],
    [⟨.scalar (6/10), 1⟩, ⟨.scalar (7/10), 1⟩, ⟨.scalar (9/10), 1⟩]⟩
    ⟨⟨.scalar (6/10), 1⟩, by simp, by simp⟩).1

/-- Claim C3: on a record none of whose days has documents, `__getitem__`
produces exactly one fallback day sub-example with id 0 whose target row is
the indicator of the true label — `[true_label]` for BinaryTF/Regression and
the one-hot list over the first `min(len(choices), max_choice_len)` choice
slots for MultiChoice — so the produced example has at least one snapshot. -/
theorem fallback_single_subexample (adjust : Bool) (msl : Nat) (ex : QuestionRecord)
    (hnodoc : ∀ d ∈ ex.targets, d.ctxs = 0)
    (out : ItemOut) (hout : getItem adjust msl ex = some out) :
    out.ids = [0] ∧
    out.rows = [fallbackRow out.cat out.trueLabel (min ex.choices.len max_choice_len)] ∧
    ((out.cat = 0 ∨ out.cat = 2) → out.rows = [[out.trueLabel]]) ∧
    (out.cat = 1 → out.rows = [(List.range (min ex.choices.len max_choice_len)).map
      (fun i => if (i : ℚ) = out.trueLabel then 1 else 0)]) := by
  unfold getItem at hout
  simp only [Option.bind_eq_some] at hout
  obtain ⟨raw, hraw, padded, hpad, hres⟩ := hout
  unfold preTrunc at hraw
  simp only [Option.bind_eq_some] at hraw
  obtain ⟨cat, hcat, trueT, htt, r, hbd, hres2⟩ := hraw
  rw [buildDays_nodocs adjust cat trueT _ ex.targets hnodoc 0] at hbd
  have hr : r = ([], [], false) := (Option.some.inj hbd).symm
  subst hr
  by_cases hemp : ex.targets.isEmpty
  · simp [hemp] at hres2
  · simp only [hemp] at hres2
    simp at hres2
    obtain rfl : raw = ⟨[fallbackRow cat trueT (min ex.choices.len max_choice_len)],
        [0], trueT, cat⟩ := hres2.symm
    have heq := Option.some.inj hres
    obtain rfl : out = ⟨pySliceLast msl [0],
        pySliceLast msl [fallbackRow cat trueT (min ex.choices.len max_choice_len)],
        padded, trueT, cat⟩ := heq.symm
    refine ⟨?_, ?_, ?_, ?_⟩
    · simp [pySliceLast_singleton]
    · simp [pySliceLast_singleton]
    · intro hcat02
      have h02 : cat = 0 ∨ cat = 2 := hcat02
      simp [pySliceLast_singleton, fallbackRow, if_pos h02]
    · intro hcat1
      have h1 : cat = 1 := hcat1
      subst h1
      simp [pySliceLast_singleton, fallbackRow]

/-- Witness for C3: a binary record with two document-free days yields the
single fallback sub-example with id 0 and target row `[true_label]`. -/
theorem fallback_single_subexample_witness :
    (⟨[0], [[0]], [(0 : ℚ) :: List.replicate 11 (-1)], 0, 0⟩ : ItemOut).ids = [0] ∧
    (⟨[0], [[0]], [(0 : ℚ) :: List.replicate 11 (-1)], 0, 0⟩ : ItemOut).rows =
      [fallbackRow 0 0 (min (ChoiceSet.list ["yes", "no"]).len max_choice_len)] ∧
    (((⟨[0], [[0]], [(0 : ℚ) :: List.replicate 11 (-1)], 0, 0⟩ : ItemOut).cat = 0 ∨
      (⟨[0], [[0]], [(0 : ℚ) :: List.replicate 11 (-1)], 0, 0⟩ : ItemOut).cat = 2) →
      (⟨[0], [[0]], [(0 : ℚ) :: List.replicate 11 (-1)], 0, 0⟩ : ItemOut).rows = [[0]]) ∧
    ((⟨[0], [[0]], [(0 : ℚ) :: List.replicate 11 (-1)], 0, 0⟩ : ItemOut).cat = 1 →
      (⟨[0], [[0]], [(0 : ℚ) :: List.replicate 11 (-1)], 0, 0⟩ : ItemOut).rows =
        [(List.range (min (ChoiceSet.list ["yes", "no"]).len max_choice_len)).map
          (fun i => if (i : ℚ) = 0 then 1 else 0)]) :=
  fallback_single_subexample false 128
    ⟨"q", ["no"], .list ["yes", "no"], [⟨.scalar (1/2), 0⟩, ⟨.scalar (3/10), 0⟩]⟩
    (by decide) ⟨[0], [[0]], [(0 : ℚ) :: List.replicate 11 (-1)], 0, 0⟩ (by decide)

/-- Every member of a list of naturals is bounded by `listMax`. -/
theorem le_listMax : ∀ {l : List Nat} {x : Nat}, x ∈ l → x ≤ listMax l := by
  intro l
  induction l with
  | nil => intro x h; simp at h
  | cons a l ih =>
    intro x h
    rcases List.mem_cons.mp h with h1 | h2
    · rw [h1]; exact Nat.le_max_left _ _
    · exact le_trans (ih h2) (Nat.le_max_right _ _)

/-- Any element read out of a constant list is that constant. -/
theorem replicate_get?_eq : ∀ (k n : Nat) (v x : α),
    (List.replicate k v).get? n = some x → x = v := by
  intro k
  induction k with
  | zero => intro n v x h; simp at h
  | succ k ih =>
    intro n v x h
    rw [List.replicate_succ] at h
    cases n with
    | zero => simp at h; exact h.symm
    | succ n => rw [List.get?_cons_succ] at h; exact ih n v x h

/-- Indexing into the output of `padSequence`. -/
theorem padSequence_get? (v : ℚ) (mats : List (List (List ℚ))) (i : Nat) :
    (padSequence v mats).get? i = (mats.get? i).map
      (fun m => m ++ List.replicate (listMax (mats.map List.length) - m.length)
        (List.replicate (((mats.headD []).headD []).length) v)) := by
  simp [padSequence, List.get?_map]

/-- Claim C4: the two padding levels use their distinct sentinels — every
per-example padded target tensor from `__getitem__` is its row list with
each row right-padded to width `max_choice_len` by exactly `-1.0` (so its
shape is `[num_days, max_choice_len]`), and in every collated batch any
day row lying beyond an example's original sequence length is a constant
`-2.0` row, while hidden-vector sequences are padded with constant zero
rows. -/
theorem padding_sentinel_values :
    (∀ (adjust : Bool) (msl : Nat) (ex : QuestionRecord) (out : ItemOut),
      getItem adjust msl ex = some out →
      out.padded = out.rows.map (fun r => r ++ List.replicate (max_choice_len - r.length) (-1)) ∧
      out.padded.length = out.rows.length ∧
      ∀ r ∈ out.padded, r.length = max_choice_len) ∧
    (∀ (examples labels : List (List (List ℚ))) (tls : List ℚ) (cats : List Nat)
        (i d : Nat) (lbl : List (List ℚ)) (row : List ℚ),
      labels.get? i = some lbl → lbl.length ≤ d →
      entry2 (forecaster_collate_fn examples labels tls cats).labels i d = some row →
      row = List.replicate (((labels.headD []).headD []).length) (-2)) ∧
    (∀ (examples labels : List (List (List ℚ))) (tls : List ℚ) (cats : List Nat)
        (i d : Nat) (exm : List (List ℚ)) (row : List ℚ),
      examples.get? i = some exm → exm.length ≤ d →
      entry2 (forecaster_collate_fn examples labels tls cats).X i d = some row →
      row = List.replicate (((examples.headD []).headD []).length) 0) := by
  refine ⟨?_, ?_, ?_⟩
  · intro adjust msl ex out hout
    unfold getItem at hout
    simp only [Option.bind_eq_some] at hout
    obtain ⟨raw, hraw, padded, hpad, hres⟩ := hout
    unfold padTargets at hpad
    by_cases hne : (pySliceLast msl raw.rows).isEmpty
    · rw [if_pos hne] at hpad; exact absurd hpad (by simp)
    · rw [if_neg hne] at hpad
      by_cases hbig : ((pySliceLast msl raw.rows).map List.length).foldr max 0 > max_choice_len
      · rw [if_pos hbig] at hpad; exact absurd hpad (by simp)
      · rw [if_neg hbig] at hpad
        have hpadded := (Option.some.inj hpad).symm
        have heq := Option.some.inj hres
        have hbound : ∀ r ∈ pySliceLast msl raw.rows, r.length ≤ max_choice_len := by
          intro r hr
          have : r.length ∈ (pySliceLast msl raw.rows).map List.length :=
            List.mem_map_of_mem List.length hr
          exact le_trans (le_listMax this) (by unfold listMax; omega)
        obtain rfl : out = ⟨pySliceLast msl raw.ids, pySliceLast msl raw.rows,
            padded, raw.trueLabel, raw.cat⟩ := heq.symm
        refine ⟨by rw [hpadded]; rfl, by rw [hpadded]; simp [padRow], ?_⟩
        intro r hr
        rw [hpadded] at hr
        simp only [List.mem_map] at hr
        obtain ⟨r0, hr0, hr0eq⟩ := hr
        have := hbound r0 hr0
        rw [← hr0eq]
        simp [padRow]
        omega
  · intro examples labels tls cats i d lbl row hlbl hd hrow
    have hL : (forecaster_collate_fn examples labels tls cats).labels =
        padSequence (-2) labels := rfl
    rw [hL] at hrow
    unfold entry2 at hrow
    rw [padSequence_get? (-2) labels i, hlbl] at hrow
    simp only [Option.map_some', Option.some_bind] at hrow
    rw [List.get?_append_right hd] at hrow
    exact replicate_get?_eq _ _ _ _ hrow
  · intro examples labels tls cats i d exm row hexm hd hrow
    have hX : (forecaster_collate_fn examples labels tls cats).X =
        padSequence 0 examples := rfl
    rw [hX] at hrow
    unfold entry2 at hrow
    rw [padSequence_get? 0 examples i, hexm] at hrow
    simp only [Option.map_some', Option.some_bind] at hrow
    rw [List.get?_append_right hd] at hrow
    exact replicate_get?_eq _ _ _ _ hrow

/-- Witness for C4: collating a 1-day and a 2-day example pads the first
example's second day row with the `-2.0` sentinel. -/
theorem padding_sentinel_values_witness :
    ([(-2 : ℚ), -2]) = List.replicate
      ((([[[(1 : ℚ), 1]], [[2, 2], [3, 3]]].headD []).headD []).length) (-2) :=
  padding_sentinel_values.2.1 [[[(1 : ℚ), 1]], [[2, 2], [3, 3]]]
    [[[(1 : ℚ), 1]], [[2, 2], [3, 3]]] [0, 0] [0, 1] 0 1 [[(1 : ℚ), 1]] [(-2), -2]
    (by decide) (by decide) (by decide)

/-- Claim C5: in every collated batch, `mask[i, d] = True` exactly when
`d ≤ seq_ends[i]`, where `seq_ends[i]` is the example's original day count
minus one; concretely, collating examples with day counts 2 and 4 (hidden
size 8) yields mask `[[T,T,F,F],[T,T,T,T]]` and `seq_ends = [1, 3]`. -/
theorem collate_mask_seq_ends :
    (∀ (examples labels : List (List (List ℚ))) (tls : List ℚ) (cats : List Nat)
        (i d : Nat) (lbl : List (List ℚ)) (b : Bool),
      labels.get? i = some lbl →
      entry2 (forecaster_collate_fn examples labels tls cats).mask i d = some b →
      (forecaster_collate_fn examples labels tls cats).seqEnds.get? i =
        some ((lbl.length : Int) - 1) ∧
      (b = true ↔ (d : Int) ≤ (lbl.length : Int) - 1)) ∧
    ((forecaster_collate_fn
        [List.replicate 2 (List.replicate 8 (0 : ℚ)), List.replicate 4 (List.replicate 8 0)]
        [List.replicate 2 [(1 : ℚ)], List.replicate 4 [(1 : ℚ)]]
        [1, 1] [0, 0]).mask = [[true, true, false, false], [true, true, true, true]] ∧
      (forecaster_collate_fn
        [List.replicate 2 (List.replicate 8 (0 : ℚ)), List.replicate 4 (List.replicate 8 0)]
        [List.replicate 2 [(1 : ℚ)], List.replicate 4 [(1 : ℚ)]]
        [1, 1] [0, 0]).seqEnds = [1, 3]) := by
  refine ⟨?_, by decide, by decide⟩
  intro examples labels tls cats i d lbl b hlbl hmask
  have hM : (forecaster_collate_fn examples labels tls cats).mask =
      (labels.map List.length).map
        (fun len => (List.range (listMax (labels.map List.length))).map
          (fun d => decide (d < len))) := rfl
  have hS : (forecaster_collate_fn examples labels tls cats).seqEnds =
      (labels.map List.length).map (fun len : Nat => ((len : Int) - 1)) := rfl
  constructor
  · rw [hS, List.get?_map, List.get?_map, hlbl]
    rfl
  · rw [hM] at hmask
    unfold entry2 at hmask
    rw [List.get?_map, List.get?_map, hlbl] at hmask
    simp only [Option.map_some', Option.some_bind, List.get?_map] at hmask
    cases hrange : (List.range (listMax (labels.map List.length))).get? d with
    | none => rw [hrange] at hmask; exact absurd hmask (by simp)
    | some d' =>
      rw [hrange] at hmask
      have hd' : d' = d := by
        have hlt := List.get?_mem hrange
        have := List.get?_eq_some.mp hrange
        obtain ⟨hn, hget⟩ := this
        rw [← hget]
        simp
      simp only [Option.map_some'] at hmask
      have hb := (Option.some.inj hmask).symm
      rw [hb, hd']
      constructor
      · intro h
        have : d < lbl.length := of_decide_eq_true h
        omega
      · intro h
        apply decide_eq_true
        omega

/-- Witness for C5: in a collated 1-day/2-day batch, day 1 of the first
example is masked off and its `seq_ends` entry is 0. -/
theorem collate_mask_seq_ends_witness :
    (forecaster_collate_fn [[[(0 : ℚ)]], [[0], [0]]] [[[(1 : ℚ)]], [[1], [1]]]
        [1, 1] [0, 0]).seqEnds.get? 0 =
      some ((([[(1 : ℚ)]] : List (List ℚ)).length : Int) - 1) ∧
    ((false = true) ↔
      ((1 : Nat) : Int) ≤ (([[(1 : ℚ)]] : List (List ℚ)).length : Int) - 1) :=
  collate_mask_seq_ends.1 [[[(0 : ℚ)]], [[0], [0]]] [[[(1 : ℚ)]], [[1], [1]]]
    [1, 1] [0, 0] 0 1 [[(1 : ℚ)]] false (by decide) (by decide)

/-- Claim C6: in every batch, a category with no examples contributes a loss
of exactly 0 (the guarded branch never evaluates empty-tensor arithmetic),
and the total training loss is exactly the sum of the three per-category
losses, whose only reweighting is the fixed divisors 1.74 (MultiChoice) and
0.18 (Regression). -/
theorem loss_category_routing (lsm : List ℚ → List ℚ) (b : LossIn) :
    (selectCat 0 b.cats b.labels = [] → (computeLosses lsm b).1 = 0) ∧
    (selectCat 1 b.cats b.labels = [] → (computeLosses lsm b).2.1 = 0) ∧
    (selectCat 2 b.cats b.labels = [] → (computeLosses lsm b).2.2.1 = 0) ∧
    (selectCat 0 b.cats b.labels ≠ [] → (computeLosses lsm b).1 =
      lossTF lsm (selectCat 0 b.cats b.tfLogits) (selectCat 0 b.cats b.labels)
        (selectCat 0 b.cats b.mask)) ∧
    (selectCat 1 b.cats b.labels ≠ [] → (computeLosses lsm b).2.1 =
      lossMC lsm (selectCat 1 b.cats b.mcLogits) (selectCat 1 b.cats b.labels)
        (selectCat 1 b.cats b.mask) / (174/100)) ∧
    (selectCat 2 b.cats b.labels ≠ [] → (computeLosses lsm b).2.2.1 =
      lossRE (selectCat 2 b.cats b.reResults) (selectCat 2 b.cats b.labels)
        (selectCat 2 b.cats b.mask) / (18/100)) ∧
    (computeLosses lsm b).2.2.2 =
      (computeLosses lsm b).1 + (computeLosses lsm b).2.1 + (computeLosses lsm b).2.2.1 := by
  refine ⟨?_, ?_, ?_, ?_, ?_, ?_, rfl⟩
  · intro h
    show (if (selectCat 0 b.cats b.labels).length > 0 then _ else (0 : ℚ)) = 0
    rw [h]
    simp
  · intro h
    show (if (selectCat 1 b.cats b.labels).length > 0 then _ else (0 : ℚ)) = 0
    rw [h]
    simp
  · intro h
    show (if (selectCat 2 b.cats b.labels).length > 0 then _ else (0 : ℚ)) = 0
    rw [h]
    simp
  · intro h
    show (if (selectCat 0 b.cats b.labels).length > 0 then _ else (0 : ℚ)) = _
    rw [if_pos (List.length_pos.mpr h)]
  · intro h
    show (if (selectCat 1 b.cats b.labels).length > 0 then _ else (0 : ℚ)) = _
    rw [if_pos (List.length_pos.mpr h)]
  · intro h
    show (if (selectCat 2 b.cats b.labels).length > 0 then _ else (0 : ℚ)) = _
    rw [if_pos (List.length_pos.mpr h)]

/-- Witness for C6: a batch holding a single BinaryTF example has MultiChoice
and Regression losses exactly 0. -/
theorem loss_category_routing_witness :
    (computeLosses (fun l => l)
      ⟨[[[1, 1]]], [[[1]]], [[(0 : ℚ)]], [[[(1 : ℚ)/2]]], [[true]], [0]⟩).2.1 = 0 ∧
    (computeLosses (fun l => l)
      ⟨[[[1, 1]]], [[[1]]], [[(0 : ℚ)]], [[[(1 : ℚ)/2]]], [[true]], [0]⟩).2.2.1 = 0 := by
  constructor
  · exact (loss_category_routing (fun l => l)
      ⟨[[[1, 1]]], [[[1]]], [[(0 : ℚ)]], [[[(1 : ℚ)/2]]], [[true]], [0]⟩).2.1 (by decide)
  · exact (loss_category_routing (fun l => l)
      ⟨[[[1, 1]]], [[[1]]], [[(0 : ℚ)]], [[[(1 : ℚ)/2]]], [[true]], [0]⟩).2.2.1 (by decide)

/-- Claim C9: the hidden vectors returned by `get_fid_outputs` carry gradient
information exactly when the requested mode is `train` and the
`finetune_encoder` flag is set; in every other combination the effective
mode is forced to `eval` and the outputs are detached. -/
theorem fid_gradient_flow (finetune_encoder : Bool) (mode : Mode) :
    carriesGrad (fidGradInfo finetune_encoder mode) =
      (finetune_encoder && (mode == Mode.train)) ∧
    ((fidGradInfo finetune_encoder mode).effMode,
        (fidGradInfo finetune_encoder mode).detached) =
      (if finetune_encoder && (mode == Mode.train) then (Mode.train, false)
       else (Mode.eval, true)) := by
  cases finetune_encoder <;> cases mode <;> exact ⟨rfl, rfl⟩

/-- The indexed adjustment recursion agrees with the index-enumerating list
comprehension it transcribes. -/
theorem adjustMC_eq_enumFrom (trueT : ℚ) : ∀ (t : List ℚ) (k : Nat),
    adjustMC trueT k t = (t.enumFrom k).map
      (fun p => if (p.1 : ℚ) = trueT then (p.2 + 1) / 2 else p.2 / 2) := by
  intro t
  induction t with
  | nil => intro k; simp [adjustMC]
  | cons x xs ih => intro k; simp [adjustMC, List.enumFrom, ih (k + 1)]

/-- Claim C7: per-day targets follow the stated formulas — BinaryTF and
Regression days produce `[t]` (or `[(t + true_label)/2]` under target
adjustment), MultiChoice days normalize the raw scores over the first
`min(num_choices, max_choice_len)` choices and optionally apply the halving
blend — and the concrete MultiChoice scenario (3 choices, answer B, one day
with raw scores `[1,2,1]`) yields day target `[0.25, 0.5, 0.25]`,
category 1 and true label 1. -/
theorem day_target_formulas :
    (∀ (adjust : Bool) (cat : Nat) (trueT t : ℚ) (length : Nat),
      cat = 0 ∨ cat = 2 →
      dayRow adjust cat trueT length (.scalar t) =
        some (specScalarTarget adjust trueT t)) ∧
    (∀ (adjust : Bool) (trueT : ℚ) (num_choices : Nat) (raw : List ℚ),
      (raw.take (min num_choices max_choice_len)).sum ≠ 0 →
      dayRow adjust 1 trueT (min num_choices max_choice_len) (.vec raw) =
        some (specMCTarget adjust trueT num_choices raw)) ∧
    (∃ out, getItem false 128
        ⟨"q", ["B"], .list ["A", "B", "C"], [⟨.vec [1, 2, 1], 1⟩]⟩ = some out ∧
      out.rows = [[1/4, 1/2, 1/4]] ∧ out.cat = 1 ∧ out.trueLabel = 1) := by
  refine ⟨?_, ?_, ?_⟩
  · intro adjust cat trueT t length h
    unfold dayRow specScalarTarget
    rw [if_pos h]
  · intro adjust trueT num_choices raw hsum
    have h1 : ¬((1 : Nat) = 0 ∨ (1 : Nat) = 2) := by decide
    unfold dayRow specMCTarget
    rw [if_neg h1]
    dsimp only
    rw [if_neg hsum]
    by_cases ha : adjust = true
    · subst ha
      simp only [if_pos rfl]
      rw [adjustMC_eq_enumFrom]
      rw [show ∀ l : List ℚ, l.enum = l.enumFrom 0 from fun l => rfl]
    · have hf : adjust = false := by
        cases adjust
        · rfl
        · exact absurd rfl ha
      subst hf
      simp
  · exact ⟨⟨[0], [[1/4, 1/2, 1/4]],
      [[1/4, 1/2, 1/4] ++ List.replicate 9 (-1)], 1, 1⟩,
      by with_unfolding_all decide, rfl, rfl, rfl⟩

/-- Witness for C7: the scalar formula at `t = 0.6` and the MultiChoice
formula at raw scores `[1,2,1]` with 3 choices. -/
theorem day_target_formulas_witness :
    dayRow false 0 1 12 (.scalar (6/10)) = some (specScalarTarget false 1 (6/10)) ∧
    dayRow false 1 1 (min 3 max_choice_len) (.vec [1, 2, 1]) =
      some (specMCTarget false 1 3 [1, 2, 1]) :=
  ⟨day_target_formulas.1 false 0 1 (6/10) 12 (Or.inl rfl),
   day_target_formulas.2.1 false 1 3 [1, 2, 1] (by with_unfolding_all decide)⟩

/-- Counterexample for C8: on the stated scenario (BinaryTF, answer yes,
3 document-bearing days, crowd targets 0.6/0.7/0.9, no adjustment) the
returned targets tensor is not `[[0.6],[0.7],[0.9]]` — it is the
`[3, max_choice_len]` tensor padded with `-1.0`. -/
theorem binary_scenario_counterexample :
    ∃ out, getItem false 128 ⟨"q", ["yes"], .list ["yes", "no"],
        [⟨.scalar (6/10), 1⟩, ⟨.scalar (7/10), 1⟩, ⟨.scalar (9/10), 1⟩]⟩ = some out ∧
      out.cat = 0 ∧ out.trueLabel = 1 ∧
      out.padded ≠ [[6/10], [7/10], [9/10]] :=
  ⟨⟨[0, 1, 2], [[6/10], [7/10], [9/10]],
    [(6/10 : ℚ) :: List.replicate 11 (-1), (7/10 : ℚ) :: List.replicate 11 (-1),
     (9/10 : ℚ) :: List.replicate 11 (-1)], 1, 0⟩,
    by with_unfolding_all decide, rfl, rfl, by with_unfolding_all decide⟩

/-- Claim C8 (amended): on the BinaryTF scenario the per-day target rows are
exactly `[[0.6],[0.7],[0.9]]` and the returned tensor is those rows each
right-padded with `-1.0` to width `max_choice_len`, with category 0 and
true label 1. -/
theorem binary_scenario_rows :
    ∃ out, getItem false 128 ⟨"q", ["yes"], .list ["yes", "no"],
        [⟨.scalar (6/10), 1⟩, ⟨.scalar (7/10), 1⟩, ⟨.scalar (9/10), 1⟩]⟩ = some out ∧
      out.rows = [[6/10], [7/10], [9/10]] ∧
      out.padded = [[6/10], [7/10], [9/10]].map
        (fun r => r ++ List.replicate (max_choice_len - r.length) (-1)) ∧
      out.cat = 0 ∧ out.trueLabel = 1 :=
  ⟨⟨[0, 1, 2], [[6/10], [7/10], [9/10]],
    [(6/10 : ℚ) :: List.replicate 11 (-1), (7/10 : ℚ) :: List.replicate 11 (-1),
     (9/10 : ℚ) :: List.replicate 11 (-1)], 1, 0⟩,
    by with_unfolding_all decide, rfl, by with_unfolding_all decide, rfl, rfl⟩

/-- Dividing every entry of a list by a constant divides its sum. -/
theorem sum_map_div (l : List ℚ) (c : ℚ) : (l.map (· / c)).sum = l.sum / c := by
  induction l with
  | nil => simp
  | cons x xs ih =>
    simp only [List.map_cons, List.sum_cons, ih]
    ring

/-- Sum of the halving blend: half the original sum, plus one half exactly
when some position of the row matches the true-choice index. -/
theorem adjustMC_sum (trueT : ℚ) : ∀ (t : List ℚ) (k : Nat),
    (adjustMC trueT k t).sum = t.sum / 2 +
      (if ∃ i, i < t.length ∧ (i : ℚ) + (k : ℚ) = trueT then 1/2 else 0) := by
  intro t
  induction t with
  | nil => intro k; simp [adjustMC]
  | cons x xs ih =>
    intro k
    unfold adjustMC
    simp only [List.sum_cons]
    rw [ih (k + 1)]
    by_cases hk : ((k : Nat) : ℚ) = trueT
    · have hnot : ¬∃ i, i < xs.length ∧ (i : ℚ) + ((k + 1 : Nat) : ℚ) = trueT := by
        rintro ⟨i, hi, hc⟩
        rw [← hk] at hc
        push_cast at hc
        have hnn : (0 : ℚ) ≤ (i : ℚ) := Nat.cast_nonneg i
        linarith
      have hyes : ∃ i, i < (x :: xs).length ∧ (i : ℚ) + (k : ℚ) = trueT :=
        ⟨0, by simp, by push_cast; linarith [hk]⟩
      rw [if_pos hk, if_neg hnot, if_pos hyes]
      ring
    · have hiff : (∃ i, i < xs.length ∧ (i : ℚ) + ((k + 1 : Nat) : ℚ) = trueT) ↔
          (∃ i, i < (x :: xs).length ∧ (i : ℚ) + (k : ℚ) = trueT) := by
        constructor
        · rintro ⟨i, hi, hc⟩
          refine ⟨i + 1, by simpa using Nat.succ_lt_succ hi, ?_⟩
          push_cast at hc ⊢
          linarith
        · rintro ⟨i, hi, hc⟩
          cases i with
          | zero =>
            exfalso
            apply hk
            push_cast at hc
            linarith
          | succ i =>
            refine ⟨i, by simpa using hi, ?_⟩
            push_cast at hc ⊢
            linarith
      rw [if_neg hk]
      by_cases hex : ∃ i, i < xs.length ∧ (i : ℚ) + ((k + 1 : Nat) : ℚ) = trueT
      · rw [if_pos hex, if_pos (hiff.mp hex)]
        ring
      · rw [if_neg hex, if_neg (fun h => hex (hiff.mpr h))]
        ring

/-- Counterexample for C10: a MultiChoice record with 13 choices and answer
`M` (true index 12) has its true choice truncated away by
`[:min(num_choices, max_choice_len)]`, so with target adjustment the one
produced day row (all 13 raw scores positive) sums to `1/2`, not 1. -/
theorem mc_unit_sum_truncation_counterexample :
    (∀ x ∈ (List.replicate 13 (1 : ℚ)), 0 < x) ∧
    ∃ out, getItem true 128 ⟨"q", ["M"],
        .list ["A", "B", "C", "D", "E", "F", "G", "H", "I", "J", "K", "L", "M"],
        [⟨.vec (List.replicate 13 1), 1⟩]⟩ = some out ∧
      out.cat = 1 ∧ out.rows.map List.sum = [1/2] :=
  ⟨by decide, ⟨[0], [List.replicate 12 (1/24)], [List.replicate 12 (1/24)], 12, 1⟩,
    by with_unfolding_all decide, rfl, by with_unfolding_all decide⟩

/-- Claim C10 (amended): a MultiChoice day row built from positive raw
scores sums to exactly 1 both without adjustment and — provided the
true-choice index survives the `[:length]` truncation — with the halving
blend, which preserves the unit sum established by normalization. -/
theorem mc_row_unit_sum (adjust : Bool) (trueT : ℚ) (L : Nat) (raw : List ℚ)
    (hpos : ∀ x ∈ raw, 0 < x) (hne : raw ≠ []) (hL : 0 < L)
    (hidx : adjust = true → ∃ i : Nat, (i : ℚ) = trueT ∧ i < min raw.length L) :
    ∃ r, dayRow adjust 1 trueT L (.vec raw) = some r ∧ r.sum = 1 := by
  have h1 : ¬((1 : Nat) = 0 ∨ (1 : Nat) = 2) := by decide
  have hkeptpos : ∀ x ∈ raw.take L, 0 < x := fun x hx => hpos x (List.mem_of_mem_take hx)
  have hkne : raw.take L ≠ [] := by
    apply List.ne_nil_of_length_pos
    rw [List.length_take]
    have : 0 < raw.length := List.length_pos.mpr hne
    omega
  have htotne : (raw.take L).sum ≠ 0 := ne_of_gt (List.sum_pos _ hkeptpos hkne)
  have hnorm : ((raw.take L).map (· / (raw.take L).sum)).sum = 1 := by
    rw [sum_map_div]
    exact div_self htotne
  refine ⟨if adjust then adjustMC trueT 0 ((raw.take L).map (· / (raw.take L).sum))
      else (raw.take L).map (· / (raw.take L).sum), ?_, ?_⟩
  · unfold dayRow
    rw [if_neg h1]
    dsimp only
    rw [if_neg htotne]
  · by_cases ha : adjust = true
    · subst ha
      simp only [if_pos rfl, if_true]
      rw [adjustMC_sum, hnorm]
      have hcond : ∃ i, i < ((raw.take L).map (· / (raw.take L).sum)).length ∧
          (i : ℚ) + ((0 : Nat) : ℚ) = trueT := by
        obtain ⟨i, hieq, hilt⟩ := hidx rfl
        refine ⟨i, ?_, by push_cast; linarith [hieq]⟩
        rw [List.length_map, List.length_take]
        omega
      rw [if_pos hcond]
      norm_num
    · have hf : adjust = false := by
        cases adjust
        · rfl
        · exact absurd rfl ha
      subst hf
      simpa using hnorm

/-- Witness for the amended C10: raw scores `[1,2,1]`, 3 choices, true index
1, with adjustment — the produced row sums to 1. -/
theorem mc_row_unit_sum_witness :
    ∃ r, dayRow true 1 1 3 (.vec [1, 2, 1]) = some r ∧ r.sum = 1 :=
  mc_row_unit_sum true 1 3 [1, 2, 1] (by decide) (by decide) (by decide)
    (fun _ => ⟨1, by norm_num, by decide⟩)
